import Mathlib

/-!
Verification of the sea-surface-temperature raster pipeline.

The concrete JavaScript service (src/services/sstService.js) is embedded
directly.  The Python processing core (SSTProcessor) survives in the
repository only as a byte-mangled compiled artifact, so its stages
(GridLoader, Smoother, Resampler, Colorizer, Orchestrator) are modelled
from the specification text; every such definition carries a doc comment
beginning with "Modelled from the spec:".

Numeric values are embedded as rationals; the floating-point value NaN is
embedded as the value `none` of `Option ℚ`, with arithmetic that
propagates `none` exactly as IEEE arithmetic propagates NaN.
-/

/-- Decidable equality of fallible results, used to compare runs and
error outcomes on concrete inputs. -/
instance {ε α : Type} [DecidableEq ε] [DecidableEq α] :
    DecidableEq (Except ε α) := fun a b =>
  match a, b with
  | Except.ok x, Except.ok y =>
      if h : x = y then Decidable.isTrue (by rw [h])
      else Decidable.isFalse (fun hc => by cases hc; exact h rfl)
  | Except.error x, Except.error y =>
      if h : x = y then Decidable.isTrue (by rw [h])
      else Decidable.isFalse (fun hc => by cases hc; exact h rfl)
  | Except.ok _, Except.error _ => Decidable.isFalse (fun hc => by cases hc)
  | Except.error _, Except.ok _ => Decidable.isFalse (fun hc => by cases hc)

namespace SST

/-- A raster cell: `none` embeds the not-a-number / masked sentinel,
`some v` a finite temperature value. -/
abbrev Cell := Option ℚ

/-- A raster grid as a total function from (row, column) indices; the
logical extent (number of rows and columns) is passed separately,
mirroring a numpy array of a given shape. -/
abbrev Grid := ℕ → ℕ → Cell

/-- Elementwise Celsius to Fahrenheit conversion from
src/src/services/sstService.js line 6:
`const celsiusToFahrenheit = (celsius) => (celsius * 9) / 5 + 32;`. -/
def celsiusToFahrenheit (c : ℚ) : ℚ := (c * 9) / 5 + 32

/-- NaN-propagating multiplication: any NaN operand yields NaN. -/
def nanMul : Cell → Cell → Cell
  | some a, some b => some (a * b)
  | _, _ => none

/-- NaN-propagating division (the divisor used in this development is the
nonzero literal 5, so the IEEE division-by-zero case never arises). -/
def nanDiv : Cell → Cell → Cell
  | some a, some b => some (a / b)
  | _, _ => none

/-- NaN-propagating addition: any NaN operand yields NaN. -/
def nanAdd : Cell → Cell → Cell
  | some a, some b => some (a + b)
  | _, _ => none

/-- The conversion `(c * 9) / 5 + 32` lifted to NaN-carrying values with
NaN-propagating arithmetic, as it acts elementwise on a float array. -/
def celsiusToFahrenheitNaN (x : Cell) : Cell :=
  nanAdd (nanDiv (nanMul x (some 9)) (some 5)) (some 32)

/-- Elementwise conversion of a whole raster grid, as the loader applies
it to the full temperature array. -/
def gridToFahrenheit (g : Grid) : Grid :=
  fun i j => celsiusToFahrenheitNaN (g i j)

/-! ## Smoother -/

/-- Boundary handling of the separable filter: index clamping, the
"nearest" mode named in the smoothing call of the processing core. -/
def nearMode (n : ℕ) (k : ℤ) : ℕ :=
  Int.toNat (min (max k 0) ((n : ℤ) - 1))

/-- Manhattan distance between two cell positions, used to pick the
nearest valid neighbour when pre-filling masked cells. -/
def cellDist (p q : ℕ × ℕ) : ℕ :=
  Nat.dist p.1 q.1 + Nat.dist p.2 q.2

/-- All positions inside the (r, c) extent holding a valid value. -/
def validCells (r c : ℕ) (g : Grid) : List (ℕ × ℕ) :=
  (List.range r).flatMap (fun i =>
    (List.range c).filterMap (fun j =>
      if (g i j).isSome then some (i, j) else none))

/-- Modelled from the spec: before filtering, masked cells are temporarily
filled with the value of their nearest valid neighbour (section 4.3); on a
grid with no valid cell the fill value is irrelevant because every output
cell is re-masked, and 0 is used. -/
def nearestFill (r c : ℕ) (g : Grid) : ℕ → ℕ → ℚ :=
  fun i j =>
    match g i j with
    | some v => v
    | none =>
        match (validCells r c g).argmin (fun p => cellDist (i, j) p) with
        | some p => (g p.1 p.2).getD 0
        | none => 0

/-- Modelled from the spec: one separable low-pass filtering pass along
the column axis with window half-width w and nearest-mode boundary
handling (the uniform-weight, polynomial-order-0 instance of the
configurable Savitzky-Golay style filter of section 4.3; the true
least-squares float weights are not representable exactly). -/
def rowSmooth (c w : ℕ) (f : ℕ → ℕ → ℚ) : ℕ → ℕ → ℚ :=
  fun i j =>
    (((List.range (2 * w + 1)).map
        (fun t => f i (nearMode c ((j : ℤ) + (t : ℤ) - (w : ℤ))))).sum)
      / (2 * w + 1)

/-- Modelled from the spec: the same separable pass along the row axis. -/
def colSmooth (r w : ℕ) (f : ℕ → ℕ → ℚ) : ℕ → ℕ → ℚ :=
  fun i j =>
    (((List.range (2 * w + 1)).map
        (fun t => f (nearMode r ((i : ℤ) + (t : ℤ) - (w : ℤ))) j)).sum)
      / (2 * w + 1)

/-- Modelled from the spec: the Smoother of section 4.3.  Masked cells are
temporarily filled from their nearest valid neighbour, a separable
low-pass filter with window half-width w runs along both axes, and every
cell that was masked before filling is re-masked to not-a-number. -/
def smooth_sst (r c w : ℕ) (g : Grid) : Grid :=
  fun i j =>
    (g i j).map (fun _ => colSmooth r w (rowSmooth c w (nearestFill r c g)) i j)

/-- Number of masked cells inside the (r, c) extent. -/
def maskCount (r c : ℕ) (g : Grid) : ℕ :=
  (((List.range r).map (fun i =>
      ((List.range c).filter (fun j => (g i j).isNone)).length)).sum)

/-! ## Resampler -/

/-- Linear interpolation between two values at parameter t in [0, 1]. -/
def lerp (a b t : ℚ) : ℚ := (1 - t) * a + t * b

/-- Modelled from the spec: the output axis length for a native length n
and density multiplier m is round(n * m) (section 4.4). -/
def outLen (n : ℕ) (m : ℚ) : ℕ :=
  (round ((n : ℚ) * m)).toNat

/-- Modelled from the spec: the position, in native index space, of output
sample k when a native axis of n points is resampled to N points spanning
the same physical bounds (the linspace of section 4.4 written in index
coordinates). -/
def tcoord (n N k : ℕ) : ℚ :=
  (k : ℚ) * ((n : ℚ) - 1) / ((N : ℚ) - 1)

/-- The interpolation cell containing native-index position t on an axis
of n points: the lower corner index and the fractional offset into the
cell.  At the upper boundary the last cell is used with offset 1. -/
def cellOf (n : ℕ) (t : ℚ) : ℕ × ℚ :=
  let i0 := min (Int.toNat ⌊t⌋) (n - 2)
  (i0, t - (i0 : ℚ))

/-- Modelled from the spec: bilinear evaluation of the grid interpolant at
native-index position (y, x).  A NaN at any of the four corner cells of
the interpolation support makes the result NaN, exactly as IEEE linear
weighting propagates NaN (this is also what keeps interpolation from
bleeding across a masked coastline, section 4.4). -/
def bilinear (r c : ℕ) (g : Grid) (y x : ℚ) : Cell :=
  let p := cellOf r y
  let q := cellOf c x
  match g p.1 q.1, g p.1 (q.1 + 1), g (p.1 + 1) q.1, g (p.1 + 1) (q.1 + 1) with
  | some a, some b, some d, some e =>
      some (lerp (lerp a b q.2) (lerp d e q.2) p.2)
  | _, _, _, _ => none

/-- One output cell of the resampled grid: the interpolant evaluated at
the output sample position (i, j) of an R-by-C output extent. -/
def resampleCell (r c R C : ℕ) (g : Grid) (i j : ℕ) : Cell :=
  bilinear r c g (tcoord r R i) (tcoord c C j)

/-- Modelled from the spec: the Resampler of section 4.4.  Builds the new
round(r * m) by round(c * m) grid by evaluating the interpolant at every
new coordinate. -/
def increase_resolution (r c : ℕ) (m : ℚ) (g : Grid) : List (List Cell) :=
  (List.range (outLen r m)).map (fun i =>
    (List.range (outLen c m)).map (fun j =>
      resampleCell r c (outLen r m) (outLen c m) g i j))

/-- The (r, c) extent of a grid materialised as rows of cells, for
comparing a grid with a resampler output. -/
def toLists (r c : ℕ) (g : Grid) : List (List Cell) :=
  (List.range r).map (fun i => (List.range c).map (fun j => g i j))

/-- Modelled from the spec: sample k of an axis of n points spanning the
physical bounds lo..hi (the linspace of section 4.4 in physical
coordinates); the native axis is the instance with the native length. -/
def axisPoint (lo hi : ℚ) (n : ℕ) (k : ℕ) : ℚ :=
  lo + (k : ℚ) * (hi - lo) / ((n : ℚ) - 1)

/-! ## Colorizer -/

/-- One RGBA pixel with byte channels. -/
structure RGBA where
  red : ℕ
  green : ℕ
  blue : ℕ
  alpha : ℕ
deriving DecidableEq

/-- Modelled from the spec: an ordered list of anchor colors spanning a
temperature domain in Fahrenheit (section 3, ColorMapSpec). -/
structure ColorMapSpec where
  anchors : List RGBA
  tmin : ℚ
  tmax : ℚ
deriving DecidableEq

/-- Clamp a ramp parameter into [0, 1]. -/
def clamp01 (t : ℚ) : ℚ := max 0 (min 1 t)

/-- Modelled from the spec: linear normalisation of a temperature against
the configured domain (section 4.5). -/
def normalizeTemp (s : ColorMapSpec) (v : ℚ) : ℚ :=
  clamp01 ((v - s.tmin) / (s.tmax - s.tmin))

/-- Linear interpolation of a byte channel, rounded back to a byte. -/
def lerpByte (x y : ℕ) (t : ℚ) : ℕ :=
  (round (lerp (x : ℚ) (y : ℚ) t)).toNat

/-- Modelled from the spec: evaluation of the ordered anchor ramp at a
normalised parameter t in [0, 1], by linear interpolation between the two
neighbouring anchors. -/
def rampColor (anchors : List RGBA) (t : ℚ) : RGBA :=
  if anchors.length = 0 then ⟨0, 0, 0, 255⟩
  else if anchors.length = 1 then anchors.getD 0 ⟨0, 0, 0, 255⟩
  else
    let n := anchors.length
    let p := t * ((n : ℚ) - 1)
    let i0 := min (Int.toNat ⌊p⌋) (n - 2)
    let f := p - (i0 : ℚ)
    let ca := anchors.getD i0 ⟨0, 0, 0, 255⟩
    let cb := anchors.getD (i0 + 1) ⟨0, 0, 0, 255⟩
    ⟨lerpByte ca.red cb.red f, lerpByte ca.green cb.green f,
      lerpByte ca.blue cb.blue f, 255⟩

/-- Modelled from the spec: the per-cell Colorizer decision of section
4.5, taking the mask bit and the (pre-mask) numeric value separately: a
masked cell is forced to alpha 0 unconditionally, whatever its numeric
value; a valid cell goes through the ramp at full alpha. -/
def colorizePixelRaw (s : ColorMapSpec) (masked : Bool) (v : ℚ) : RGBA :=
  if masked then ⟨0, 0, 0, 0⟩
  else rampColor s.anchors (normalizeTemp s v)

/-- The Colorizer decision on a raster cell. -/
def colorizePixel (s : ColorMapSpec) (cell : Cell) : RGBA :=
  colorizePixelRaw s cell.isNone (cell.getD 0)

/-- Modelled from the spec: the Colorizer of section 4.5 over a whole
grid, failing with DegenerateDomainError when the domain collapses. -/
def colorizeGrid (s : ColorMapSpec) (g : List (List Cell)) :
    Except String (List (List RGBA)) :=
  if s.tmin = s.tmax then Except.error "DegenerateDomainError"
  else Except.ok (g.map (fun row => row.map (colorizePixel s)))

/-! ## GridLoader -/

/-- Modelled from the spec: the loader failure taxonomy of section 4.1. -/
inductive LoadError
  | multipleTimesteps
  | missingVariable
  | unexpectedDimensionality
deriving DecidableEq

/-- Modelled from the spec: a gridded dataset handle exposing the
temperature variable as one 2D Celsius grid per timestep (the level
dimension, for which section 4.1 names no overlength error, is taken
already reduced to its single index). -/
structure NCDataset where
  timeGrids : List (List (List Cell))
deriving DecidableEq

/-- Modelled from the spec: the GridLoader of section 4.1.  Loading
selects the single timestep and converts Celsius to Fahrenheit
elementwise; a time dimension of length over 1 fails with
MultipleTimestepsError, an empty one with UnexpectedDimensionalityError. -/
def load_sst_data (ds : NCDataset) : Except LoadError (List (List Cell)) :=
  match ds.timeGrids with
  | [] => Except.error LoadError.unexpectedDimensionality
  | [g] => Except.ok (g.map (fun row => row.map celsiusToFahrenheitNaN))
  | _ :: _ :: _ => Except.error LoadError.multipleTimesteps

/-! ## PipelineOrchestrator -/

/-- Modelled from the spec: the RasterGrid of section 3, with the cell
payload materialised as rows so that byte-identity of inputs is plain
structural equality. -/
structure RasterGrid where
  nrows : ℕ
  ncols : ℕ
  cells : List (List Cell)
  minLat : ℚ
  maxLat : ℚ
  minLon : ℚ
  maxLon : ℚ
deriving DecidableEq

/-- The cell accessor of a materialised raster grid. -/
def RasterGrid.cell (rg : RasterGrid) : Grid :=
  fun i j => (rg.cells.getD i []).getD j none

/-- Modelled from the spec: the ZoomTierSpec of section 3 (zoom id,
density multiplier, smoothing window parameter). -/
structure ZoomTierSpec where
  zoomId : ℕ
  multiplier : ℚ
  window : ℕ
deriving DecidableEq

/-- Modelled from the spec: the TileArtifact of section 3: zoom id, image
pixels, pixel dimensions, georeferencing bounding box, a content hash of
the source input, and a generation timestamp. -/
structure TileArtifact where
  zoomId : ℕ
  image : List (List RGBA)
  heightPx : ℕ
  widthPx : ℕ
  bMinLat : ℚ
  bMaxLat : ℚ
  bMinLon : ℚ
  bMaxLon : ℚ
  contentHash : ℕ
  generatedAt : ℕ
deriving DecidableEq

/-- A cell folded into a hash word. -/
def hashCell : Cell → ℕ
  | none => 0
  | some q => 1 + 2 * (q.num.natAbs + 37 * q.den)

/-- Modelled from the spec: the content hash of the source input carried
on every artifact (section 3), a deterministic fold over the source
cells. -/
def contentHashOf (rg : RasterGrid) : ℕ :=
  rg.cells.foldl
    (fun acc row => row.foldl (fun a x => a * 1000003 + hashCell x) (acc * 7 + 3))
    17

/-- Modelled from the spec: one zoom tier of the pipeline of section 2:
smooth the raster, resample it for the tier, colorize it, and attach the
georeferencing metadata, the source content hash and the generation
timestamp (the wall clock is the explicit parameter now, since the
embedding is pure). -/
def makeTile (now : ℕ) (rg : RasterGrid) (s : ColorMapSpec)
    (tier : ZoomTierSpec) : TileArtifact :=
  let sm := smooth_sst rg.nrows rg.ncols tier.window rg.cell
  let resampled := increase_resolution rg.nrows rg.ncols tier.multiplier sm
  { zoomId := tier.zoomId
    image := resampled.map (fun row => row.map (colorizePixel s))
    heightPx := outLen rg.nrows tier.multiplier
    widthPx := outLen rg.ncols tier.multiplier
    bMinLat := rg.minLat
    bMaxLat := rg.maxLat
    bMinLon := rg.minLon
    bMaxLon := rg.maxLon
    contentHash := contentHashOf rg
    generatedAt := now }

/-- Modelled from the spec: the PipelineOrchestrator run of section 4.7,
producing one artifact per requested zoom tier, all-or-nothing on a
degenerate color domain. -/
def process_file (now : ℕ) (rg : RasterGrid) (tiers : List ZoomTierSpec)
    (s : ColorMapSpec) : Except String (List TileArtifact) :=
  if s.tmin = s.tmax then Except.error "DegenerateDomainError"
  else Except.ok (tiers.map (makeTile now rg s))

/-- Erase the generation timestamp of an artifact, for comparing the
deterministic payload of two runs. -/
def stripTime (a : TileArtifact) : TileArtifact :=
  { a with generatedAt := 0 }

/-! ## The JavaScript service (src/src/services/sstService.js)

The rows of the ERDDAP response table are 4-tuples
[time, latitude, longitude, temperature]; the temperature entry is either
a number or null.  Coordinates and temperatures are embedded as rationals
(the parseFloat re-parsing of already numeric entries is the identity in
this embedding), the time entry as its string. -/

/-- One row of sstData.table.rows. -/
structure SSTRow where
  time : String
  lat : ℚ
  lon : ℚ
  temp : Option ℚ
deriving DecidableEq

/-- The table member of the service input; rows is none when the member
is present but not an array. -/
structure SSTTable where
  rows : Option (List SSTRow)
deriving DecidableEq

/-- The service input as passed to processSST; the table member is none
when absent. -/
structure SSTInput where
  table : Option SSTTable
deriving DecidableEq

/-- A GeoJSON point feature as built by the service: coordinates
[lon, lat], a temperature property (null embedded as none), a time
property, and the interpolated marker (absent on native features,
embedded as false). -/
structure Feature where
  lon : ℚ
  lat : ℚ
  temperature : Option ℚ
  time : String
  interpolated : Bool
deriving DecidableEq

/-- The FeatureCollection returned by processSST. -/
structure FeatureCollection where
  captureDate : String
  features : List Feature
deriving DecidableEq

/-- createFeature of sstService.js lines 8..23: rows with a null
temperature yield null; otherwise a point feature carrying the Fahrenheit
conversion of the temperature. -/
def createFeature (row : SSTRow) : Option Feature :=
  match row.temp with
  | none => none
  | some t => some ⟨row.lon, row.lat, some (celsiusToFahrenheit t), row.time, false⟩

/-- Squared planar distance between two (lon, lat) points.  The turf
nearestPoint helper ranks candidates by great-circle distance, a
transcendental function of the coordinates; ranking by squared planar
distance keeps the same argmin structure in an exact embedding. -/
def sqDist (a b : ℚ × ℚ) : ℚ :=
  (a.1 - b.1) ^ 2 + (a.2 - b.2) ^ 2

/-- turf.nearestPoint over the feature list: the feature nearest to the
query point, or none when the list is empty; the iteration keeps the
earliest feature on distance ties, as the turf loop does. -/
def nearestPoint (pt : ℚ × ℚ) (fs : List Feature) : Option Feature :=
  fs.foldl
    (fun best f =>
      match best with
      | none => some f
      | some b =>
          if sqDist (f.lon, f.lat) pt < sqDist (b.lon, b.lat) pt then some f
          else some b)
    none

/-- interpolateTemperature of sstService.js lines 25..36: null when no
nearest feature exists, otherwise the temperature property of the nearest
feature. -/
def interpolateTemperature (fs : List Feature) (pt : ℚ × ℚ) : Option ℚ :=
  match nearestPoint pt fs with
  | none => none
  | some f => f.temperature

/-- createInterpolatedFeature of sstService.js lines 38..49. -/
def createInterpolatedFeature (fs : List Feature) (pt : ℚ × ℚ)
    (time : String) : Feature :=
  ⟨pt.1, pt.2, interpolateTemperature fs pt, time, true⟩

/-- The values visited by the JavaScript loop
for (x = lo; x <= hi; x += step), for a positive step (the service always
uses step 0.1); exact rational steps replace accumulated float steps. -/
def stepRange (lo hi step : ℚ) : List ℚ :=
  if 0 < step ∧ lo ≤ hi then
    (List.range ((⌊(hi - lo) / step⌋).toNat + 1)).map
      (fun k => lo + (k : ℚ) * step)
  else []

/-- The bounding box [minLon, minLat, maxLon, maxLat] of turf.bbox. -/
structure BBox where
  minLon : ℚ
  minLat : ℚ
  maxLon : ℚ
  maxLat : ℚ
deriving DecidableEq

/-- turf.bbox over the native features: componentwise minima and maxima
of the feature coordinates. -/
def computeBbox (fs : List Feature) : BBox :=
  match fs with
  | [] => ⟨0, 0, 0, 0⟩
  | f :: rest =>
      rest.foldl
        (fun bb x =>
          ⟨min bb.minLon x.lon, min bb.minLat x.lat,
            max bb.maxLon x.lon, max bb.maxLat x.lat⟩)
        ⟨f.lon, f.lat, f.lon, f.lat⟩

/-- generateGrid of sstService.js lines 51..59: all (lon, lat) pairs of
the two nested step loops over the bounding box. -/
def generateGrid (bb : BBox) (step : ℚ) : List (ℚ × ℚ) :=
  (stepRange bb.minLon bb.maxLon step).flatMap (fun lon =>
    (stepRange bb.minLat bb.maxLat step).map (fun lat => (lon, lat)))

/-- The components of a date-time string accepted by the JavaScript Date
constructor, as far as the model parses it. -/
structure JsDate where
  year : ℕ
  month : ℕ
  day : ℕ
  hour : ℕ
  minute : ℕ
  second : ℕ
  ms : ℕ
deriving DecidableEq

/-- Read exactly k decimal digits from the front of the character list,
returning their value and the remaining characters. -/
def readDigits : ℕ → ℕ → List Char → Option (ℕ × List Char)
  | 0, acc, cs => some (acc, cs)
  | k + 1, acc, c :: cs =>
      if c.isDigit then readDigits k (acc * 10 + (c.toNat - 48)) cs else none
  | _ + 1, _, [] => none

/-- The Gregorian leap-year rule. -/
def isLeapYear (y : ℕ) : Bool :=
  (y % 4 == 0 && y % 100 != 0) || y % 400 == 0

/-- Days in a month of a given year. -/
def daysInMonth (y m : ℕ) : ℕ :=
  if m = 2 then (if isLeapYear y then 29 else 28)
  else if m = 4 ∨ m = 6 ∨ m = 9 ∨ m = 11 then 30
  else 31

/-- The time-of-day part of an ISO date-time string: T followed by hours
and minutes, optional seconds and optional milliseconds; returns the
parsed fields and the remaining characters. -/
def parseTimeTail (cs : List Char) : Option (ℕ × ℕ × ℕ × ℕ × List Char) :=
  match cs with
  | 'T' :: rest =>
      match readDigits 2 0 rest with
      | none => none
      | some (hh, rest1) =>
          match rest1 with
          | ':' :: rest2 =>
              match readDigits 2 0 rest2 with
              | none => none
              | some (mi, rest3) =>
                  match rest3 with
                  | ':' :: rest4 =>
                      match readDigits 2 0 rest4 with
                      | none => none
                      | some (ss, rest5) =>
                          match rest5 with
                          | '.' :: rest6 =>
                              match readDigits 3 0 rest6 with
                              | none => none
                              | some (ms, rest7) => some (hh, mi, ss, ms, rest7)
                          | _ => some (hh, mi, ss, 0, rest5)
                  | _ => some (hh, mi, 0, 0, rest3)
          | _ => none
  | _ => none

/-- Validation and assembly of parsed date components: the characters
after the date part must be empty or a time-of-day part optionally
terminated by the UTC marker, and every component must be in range. -/
def finishDate (y m d : ℕ) (rest : List Char) : Option JsDate :=
  let core : Option (ℕ × ℕ × ℕ × ℕ × List Char) :=
    match rest with
    | [] => some (0, 0, 0, 0, [])
    | _ => parseTimeTail rest
  match core with
  | none => none
  | some (hh, mi, ss, ms, rest2) =>
      let done : Bool :=
        match rest2 with
        | [] => true
        | ['Z'] => true
        | _ => false
      if done = true ∧ 1 ≤ m ∧ m ≤ 12 ∧ 1 ≤ d ∧ d ≤ daysInMonth y m ∧
          hh ≤ 23 ∧ mi ≤ 59 ∧ ss ≤ 59 then
        some ⟨y, m, d, hh, mi, ss, ms⟩
      else none

/-- Modelled from the host runtime: the parse performed by
new Date(string).  ECMA-262 mandates acceptance of its ISO date-time
format (YYYY, YYYY-MM or YYYY-MM-DD, optionally followed by
THH:MM, THH:MM:SS or THH:MM:SS.sss and the marker Z) and leaves other
formats implementation-defined; the model accepts exactly the mandated
forms with in-range components (expanded six-digit years, the 24:00:00
midnight form and numeric timezone offsets are omitted, and date-times
without the marker are taken in UTC, the deployed timezone).  A string
outside this grammar yields none, the Invalid Date of the host. -/
def parseJsDate (s : String) : Option JsDate :=
  match readDigits 4 0 s.toList with
  | none => none
  | some (y, rest) =>
      match rest with
      | '-' :: rest1 =>
          match readDigits 2 0 rest1 with
          | none => none
          | some (m, rest2) =>
              match rest2 with
              | '-' :: rest3 =>
                  match readDigits 2 0 rest3 with
                  | none => none
                  | some (d, rest4) => finishDate y m d rest4
              | _ => finishDate y m 1 rest2
      | _ => finishDate y 1 1 rest

/-- A natural number printed in decimal, left-padded with zeros. -/
def padNum (w n : ℕ) : String :=
  let s := toString n
  if s.length < w then String.mk (List.replicate (w - s.length) '0') ++ s else s

/-- Modelled from the host runtime: Date.prototype.toISOString on a valid
date, printing the canonical YYYY-MM-DDTHH:MM:SS.sssZ form; on an invalid
date the host method throws RangeError instead. -/
def toISOStringModel (d : JsDate) : String :=
  padNum 4 d.year ++ "-" ++ padNum 2 d.month ++ "-" ++ padNum 2 d.day ++ "T" ++
    padNum 2 d.hour ++ ":" ++ padNum 2 d.minute ++ ":" ++ padNum 2 d.second ++
    "." ++ padNum 3 d.ms ++ "Z"

/-- processSST of sstService.js lines 70..101.  The input is none when
the service received null.  Line 76 builds captureDate from the first
row's time without throwing; the first toISOString call on it (line 91,
and again line 97) happens after the empty-features check and raises
RangeError when the time string did not parse, so that error is placed
exactly there in the model, carrying the host's message. -/
def processSST (d : Option SSTInput) : Except String FeatureCollection :=
  match d with
  | none => Except.error "Invalid or empty SST data received"
  | some s =>
      match s.table with
      | none => Except.error "Invalid or empty SST data received"
      | some t =>
          match t.rows with
          | none => Except.error "Invalid or empty SST data received"
          | some [] => Except.error "Invalid or empty SST data received"
          | some (r0 :: rest) =>
              let features := (r0 :: rest).filterMap createFeature
              if features = [] then
                Except.error "No valid SST data points found"
              else
                match parseJsDate r0.time with
                | none => Except.error "RangeError: Invalid time value"
                | some dt =>
                    let iso := toISOStringModel dt
                    let bb := computeBbox features
                    let grid := generateGrid bb (1 / 10)
                    let interpolated :=
                      (grid.map (fun pt => createInterpolatedFeature features pt iso)).filter
                        (fun f => f.temperature ≠ none)
                    Except.ok ⟨iso, features ++ interpolated⟩

/-! ## Concrete inputs used by witnesses and counterexamples -/

/-- A 2-by-2 grid whose top-right cell is masked. -/
def gBad : Grid := fun i j => if i = 0 && j = 1 then none else some 50

/-- A fully valid 2-by-2 grid with values 1, 2, 3, 4. -/
def gW : Grid := fun i j =>
  if i = 0 then (if j = 0 then some 1 else some 2)
  else (if j = 0 then some 3 else some 4)

/-- A service input with one valid row at the origin, 20 degrees C, and a
parseable ISO time. -/
def dGood : Option SSTInput :=
  some ⟨some ⟨some [⟨"2024-10-17T12:00:00Z", 0, 0, some 20⟩]⟩⟩

/-- A service input whose only row has a null temperature. -/
def dAllNull : Option SSTInput := some ⟨some ⟨some [⟨"t", 0, 0, none⟩]⟩⟩

/-- A service input passing both guards (non-empty rows, a non-null
temperature) whose first-row time is not a parseable date. -/
def dBadDate : Option SSTInput :=
  some ⟨some ⟨some [⟨"not a date", 0, 0, some 20⟩]⟩⟩

/-- A dataset handle with two timesteps. -/
def dsMulti : NCDataset := ⟨[[[some 1]], [[some 2]]]⟩

/-- A dataset handle with a single timestep. -/
def dsSingle : NCDataset := ⟨[[[some 10, none]]]⟩

/-- A 1-by-1 source raster. -/
def rg0 : RasterGrid := ⟨1, 1, [[some 50]], 0, 1, 0, 1⟩

/-- A single zoom tier at native density. -/
def tier0 : ZoomTierSpec := ⟨5, 1, 1⟩

/-- A two-anchor cool-to-warm color map over 30..80 Fahrenheit. -/
def cmap0 : ColorMapSpec := ⟨[⟨0, 0, 255, 255⟩, ⟨255, 0, 0, 255⟩], 30, 80⟩

/-- A degenerate-free default feature for list lookups. -/
def fDefault : Feature := ⟨0, 0, none, "", false⟩

/-! ## Helper lemmas -/

theorem isNone_map (f : ℚ → ℚ) (o : Option ℚ) : (o.map f).isNone = o.isNone := by
  cases o <;> rfl

theorem lerp_zero (a b : ℚ) : lerp a b 0 = a := by
  unfold lerp; ring

theorem lerp_one (a b : ℚ) : lerp a b 1 = b := by
  unfold lerp; ring

theorem min_le_lerp {a b t : ℚ} (h0 : 0 ≤ t) (h1 : t ≤ 1) :
    min a b ≤ lerp a b t := by
  unfold lerp
  rcases le_total a b with h | h
  · rw [min_eq_left h]; nlinarith
  · rw [min_eq_right h]; nlinarith

theorem lerp_le_max {a b t : ℚ} (h0 : 0 ≤ t) (h1 : t ≤ 1) :
    lerp a b t ≤ max a b := by
  unfold lerp
  rcases le_total a b with h | h
  · rw [max_eq_right h]; nlinarith
  · rw [max_eq_left h]; nlinarith

/-! ## Claims -/

/-- C1.  For every input grid, the Smoother never changes which cells are
masked: a cell of the smoothed grid is not-a-number exactly when the input
cell was, so no previously valid cell becomes not-a-number, no masked cell
becomes valid, and the count of masked cells is unchanged (in particular
it never decreases). -/
theorem C1_smoothing_preserves_mask (r c w : ℕ) (g : Grid) :
    (∀ i j, smooth_sst r c w g i j = none ↔ g i j = none) ∧
    maskCount r c (smooth_sst r c w g) = maskCount r c g ∧
    maskCount r c g ≤ maskCount r c (smooth_sst r c w g) := by
  have hpoint : ∀ i j, (smooth_sst r c w g i j).isNone = (g i j).isNone := by
    intro i j
    exact isNone_map _ (g i j)
  have hcount : maskCount r c (smooth_sst r c w g) = maskCount r c g := by
    unfold maskCount
    congr 1
    apply List.map_congr_left
    intro i _
    congr 1
    apply List.filter_congr
    intro j _
    exact hpoint i j
  refine ⟨?_, hcount, le_of_eq hcount.symm⟩
  intro i j
  unfold smooth_sst
  exact Option.map_eq_none'

/-- C5.  The Celsius to Fahrenheit conversion of the service satisfies
F = C * 9/5 + 32 on every finite value, its NaN-propagating lift sends
not-a-number to not-a-number, and the grid conversion applies it
elementwise. -/
theorem C5_fahrenheit_conversion (q : ℚ) (g : Grid) (i j : ℕ) :
    celsiusToFahrenheit q = q * (9 / 5) + 32 ∧
    celsiusToFahrenheitNaN (some q) = some (celsiusToFahrenheit q) ∧
    celsiusToFahrenheitNaN none = none ∧
    gridToFahrenheit g i j = celsiusToFahrenheitNaN (g i j) := by
  refine ⟨?_, rfl, rfl, rfl⟩
  unfold celsiusToFahrenheit
  ring

/-- C6.  Grid loading fails with MultipleTimestepsError whenever the time
dimension has length over 1, and succeeds exactly by selecting the single
timestep (and single level) and converting it elementwise. -/
theorem C6_single_timestep_only (ds : NCDataset) :
    (1 < ds.timeGrids.length →
      load_sst_data ds = Except.error LoadError.multipleTimesteps) ∧
    (∀ out, load_sst_data ds = Except.ok out ↔
      ∃ g, ds.timeGrids = [g] ∧
        out = g.map (fun row => row.map celsiusToFahrenheitNaN)) := by
  obtain ⟨tg⟩ := ds
  match tg with
  | [] =>
      refine ⟨fun h => absurd h (by simp [List.length]), ?_⟩
      intro out
      simp [load_sst_data]
  | [g] =>
      refine ⟨fun h => absurd h (by simp [List.length]), ?_⟩
      intro out
      have hred : load_sst_data ⟨[g]⟩ =
          Except.ok (g.map fun row => row.map celsiusToFahrenheitNaN) := rfl
      rw [hred]
      constructor
      · intro h
        exact ⟨g, rfl, (Except.ok.inj h).symm⟩
      · rintro ⟨g2, hg, hout⟩
        injection hg with h1 _
        subst h1
        subst hout
        rfl
  | g1 :: g2 :: t =>
      refine ⟨fun _ => rfl, ?_⟩
      intro out
      simp [load_sst_data]

/-- Witness for C6: a concrete two-timestep dataset is rejected with
MultipleTimestepsError. -/
theorem C6_witness :
    load_sst_data dsMulti = Except.error LoadError.multipleTimesteps :=
  (C6_single_timestep_only dsMulti).1 (by decide)

/-- C4.  A masked cell always colorizes to alpha 0: the raw per-cell
decision forces alpha 0 for any numeric value whatever when the mask bit
is set, and in any successfully colorized grid the pixel at a masked cell
has alpha 0. -/
theorem C4_masked_alpha_zero (s : ColorMapSpec) (v : ℚ)
    (g : List (List Cell)) (img : List (List RGBA)) (i j : ℕ)
    (hok : colorizeGrid s g = Except.ok img)
    (hmask : (g.getD i []).getD j (some 0) = none) :
    (colorizePixelRaw s true v).alpha = 0 ∧
    ((img.getD i []).getD j ⟨0, 0, 0, 255⟩).alpha = 0 := by
  refine ⟨rfl, ?_⟩
  unfold colorizeGrid at hok
  by_cases hdom : s.tmin = s.tmax
  · rw [if_pos hdom] at hok
    cases hok
  · rw [if_neg hdom] at hok
    have himg : img = g.map (fun row => row.map (colorizePixel s)) := by
      cases hok
      rfl
    subst himg
    have hrow : (g.map (fun row => row.map (colorizePixel s))).getD i [] =
        (g.getD i []).map (colorizePixel s) := by
      rw [List.getD_eq_getElem?_getD, List.getD_eq_getElem?_getD,
        List.getElem?_map]
      cases g[i]? <;> rfl
    rw [hrow, List.getD_eq_getElem?_getD, List.getElem?_map]
    rw [List.getD_eq_getElem?_getD] at hmask
    cases hcell : (g.getD i [])[j]? with
    | none =>
        rw [hcell] at hmask
        simp at hmask
    | some cell =>
        rw [hcell] at hmask
        simp only [Option.getD_some] at hmask
        subst hmask
        rfl

/-- Witness for C4: colorizing a 1-by-1 grid whose only cell is masked
produces a fully transparent pixel, whatever the probe value 7 would have
mapped to. -/
theorem C4_witness :
    (colorizePixelRaw ⟨[], 0, 10⟩ true 7).alpha = 0 ∧
    (([[(⟨0, 0, 0, 0⟩ : RGBA)]].getD 0 []).getD 0 ⟨0, 0, 0, 255⟩).alpha = 0 :=
  C4_masked_alpha_zero ⟨[], 0, 10⟩ 7 [[none]] [[⟨0, 0, 0, 0⟩]] 0 0
    (by with_unfolding_all rfl) rfl

/-- C7 counterexample.  Two orchestrator runs on byte-identical inputs
(the same source raster, zoom tiers and color map), invoked at wall-clock
instants 0 and 1, do not produce byte-identical artifacts: every
TileArtifact records its generation timestamp, which differs between the
runs. -/
theorem C7_counterexample :
    process_file 0 rg0 [tier0] cmap0 ≠ process_file 1 rg0 [tier0] cmap0 := by
  intro h
  have hne : cmap0.tmin ≠ cmap0.tmax := by norm_num [cmap0]
  simp only [process_file, if_neg hne] at h
  have h2 : (0 : ℕ) = 1 :=
    congrArg
      (fun x =>
        match x with
        | Except.ok (a :: _) => TileArtifact.generatedAt a
        | _ => 42)
      h
  exact absurd h2 (by decide)

/-- C7 amended.  Apart from the generation timestamp, the orchestrator is
deterministic: two runs on identical inputs agree on every artifact field
other than generatedAt (zoom ids, image bytes, pixel dimensions, bounding
boxes and content hashes are byte-identical), and runs invoked at the same
instant agree byte for byte. -/
theorem C7_deterministic_modulo_timestamp (t1 t2 : ℕ) (rg : RasterGrid)
    (tiers : List ZoomTierSpec) (s : ColorMapSpec) :
    Except.map (List.map stripTime) (process_file t1 rg tiers s) =
      Except.map (List.map stripTime) (process_file t2 rg tiers s) ∧
    process_file t1 rg tiers s = process_file t1 rg tiers s := by
  refine ⟨?_, rfl⟩
  unfold process_file
  by_cases hq : s.tmin = s.tmax
  · rw [if_pos hq, if_pos hq]
  · rw [if_neg hq, if_neg hq]
    simp only [Except.map, List.map_map]
    congr 1

theorem filterMap_createFeature_ne_nil {rows : List SSTRow} {row : SSTRow}
    (hrow : row ∈ rows) (htemp : row.temp ≠ none) :
    rows.filterMap createFeature ≠ [] := by
  intro hnil
  rw [List.filterMap_eq_nil_iff] at hnil
  have hcf := hnil row hrow
  obtain ⟨v, hv⟩ := Option.ne_none_iff_exists'.mp htemp
  unfold createFeature at hcf
  rw [hv] at hcf
  cases hcf

/-- C9 counterexample.  A concrete input passing both guards (one row,
non-null temperature) whose first-row time is not a parseable date: the
source evaluates captureDate.toISOString() on this success path (lines 91
and 97 of sstService.js), which raises RangeError on the Invalid Date, so
processSST neither returns a FeatureCollection nor throws either named
error, refuting the claim as stated. -/
theorem C9_counterexample :
    processSST dBadDate = Except.error "RangeError: Invalid time value" ∧
    processSST dBadDate ≠ Except.error "Invalid or empty SST data received" ∧
    processSST dBadDate ≠ Except.error "No valid SST data points found" ∧
    parseJsDate "not a date" = none ∧
    (⟨"not a date", 0, 0, some 20⟩ : SSTRow).temp ≠ none := by
  refine ⟨by with_unfolding_all rfl, by with_unfolding_all decide,
    by with_unfolding_all decide, by with_unfolding_all rfl, by decide⟩

/-- C9 amended.  processSST throws "Invalid or empty SST data received"
for null input or a missing, non-array or empty rows table; throws
"No valid SST data points found" when every row has a null temperature;
otherwise, when the first row's time parses as a date it returns a
FeatureCollection, and when it does not parse the toISOString call on the
Invalid Date raises RangeError; no FeatureCollection is produced on any
error path. -/
theorem C9_processSST_errors (d : Option SSTInput) :
    ((d = none ∨ ∃ s, d = some s ∧
        (s.table = none ∨ ∃ t, s.table = some t ∧
          (t.rows = none ∨ t.rows = some []))) →
      processSST d = Except.error "Invalid or empty SST data received") ∧
    (∀ s t r0 rest, d = some s → s.table = some t →
      t.rows = some (r0 :: rest) →
      (∀ row ∈ r0 :: rest, row.temp = none) →
      processSST d = Except.error "No valid SST data points found") ∧
    (∀ s t r0 rest, d = some s → s.table = some t →
      t.rows = some (r0 :: rest) →
      (∃ row ∈ r0 :: rest, row.temp ≠ none) →
      parseJsDate r0.time ≠ none →
      ∃ fc, processSST d = Except.ok fc) ∧
    (∀ s t r0 rest, d = some s → s.table = some t →
      t.rows = some (r0 :: rest) →
      (∃ row ∈ r0 :: rest, row.temp ≠ none) →
      parseJsDate r0.time = none →
      processSST d = Except.error "RangeError: Invalid time value") := by
  refine ⟨?_, ?_, ?_, ?_⟩
  · intro h
    rcases h with rfl | ⟨s, rfl, h⟩
    · rfl
    rcases h with htab | ⟨t, htab, h⟩
    · simp [processSST, htab]
    rcases h with hrows | hrows
    · simp [processSST, htab, hrows]
    · simp [processSST, htab, hrows]
  · intro s t r0 rest hd htab hrows hall
    subst hd
    have hnil : (r0 :: rest).filterMap createFeature = [] := by
      rw [List.filterMap_eq_nil_iff]
      intro row hrow
      unfold createFeature
      rw [hall row hrow]
    simp [processSST, htab, hrows, hnil]
  · intro s t r0 rest hd htab hrows hsome hdate
    subst hd
    obtain ⟨row, hrow, htemp⟩ := hsome
    have hne := filterMap_createFeature_ne_nil hrow htemp
    obtain ⟨dt, hdt⟩ := Option.ne_none_iff_exists'.mp hdate
    simp only [processSST, htab, hrows]
    rw [if_neg hne, hdt]
    exact ⟨_, rfl⟩
  · intro s t r0 rest hd htab hrows hsome hdate
    subst hd
    obtain ⟨row, hrow, htemp⟩ := hsome
    have hne := filterMap_createFeature_ne_nil hrow htemp
    simp only [processSST, htab, hrows]
    rw [if_neg hne, hdate]

/-- Witness for C9: the four behaviours at concrete inputs: null input is
rejected as invalid, an all-null table is rejected as having no valid
points, a table with one valid row and a parseable time yields a
FeatureCollection, and one with an unparseable time raises RangeError. -/
theorem C9_witness :
    processSST none = Except.error "Invalid or empty SST data received" ∧
    processSST dAllNull = Except.error "No valid SST data points found" ∧
    (∃ fc, processSST dGood = Except.ok fc) ∧
    processSST dBadDate = Except.error "RangeError: Invalid time value" := by
  refine ⟨(C9_processSST_errors none).1 (Or.inl rfl), ?_, ?_, ?_⟩
  · refine (C9_processSST_errors dAllNull).2.1 ⟨some ⟨some [⟨"t", 0, 0, none⟩]⟩⟩
      ⟨some [⟨"t", 0, 0, none⟩]⟩ ⟨"t", 0, 0, none⟩ [] rfl rfl rfl ?_
    intro row hrow
    rw [List.mem_singleton] at hrow
    subst hrow
    rfl
  · exact (C9_processSST_errors dGood).2.2.1
      ⟨some ⟨some [⟨"2024-10-17T12:00:00Z", 0, 0, some 20⟩]⟩⟩
      ⟨some [⟨"2024-10-17T12:00:00Z", 0, 0, some 20⟩]⟩
      ⟨"2024-10-17T12:00:00Z", 0, 0, some 20⟩ [] rfl rfl rfl
      ⟨⟨"2024-10-17T12:00:00Z", 0, 0, some 20⟩, List.mem_singleton_self _, by simp⟩
      (by with_unfolding_all decide)
  · exact (C9_processSST_errors dBadDate).2.2.2
      ⟨some ⟨some [⟨"not a date", 0, 0, some 20⟩]⟩⟩
      ⟨some [⟨"not a date", 0, 0, some 20⟩]⟩
      ⟨"not a date", 0, 0, some 20⟩ [] rfl rfl rfl
      ⟨⟨"not a date", 0, 0, some 20⟩, List.mem_singleton_self _, by simp⟩
      (by with_unfolding_all rfl)

/-- C10.  Every feature of a FeatureCollection returned by processSST,
native or grid-interpolated, has a non-null temperature property: rows
with null temperature are dropped by createFeature and interpolated
points whose lookup yields null are filtered out. -/
theorem C10_no_null_temperature (d : Option SSTInput) (fc : FeatureCollection)
    (hok : processSST d = Except.ok fc) :
    ∀ f ∈ fc.features, f.temperature ≠ none := by
  match d with
  | none => cases hok
  | some s =>
      match htab : s.table with
      | none => simp [processSST, htab] at hok
      | some t =>
          match hrows : t.rows with
          | none => simp [processSST, htab, hrows] at hok
          | some [] => simp [processSST, htab, hrows] at hok
          | some (r0 :: rest) =>
              simp only [processSST, htab, hrows] at hok
              by_cases hnil : (r0 :: rest).filterMap createFeature = []
              · rw [if_pos hnil] at hok
                cases hok
              · rw [if_neg hnil] at hok
                cases hdate : parseJsDate r0.time with
                | none => simp [hdate] at hok
                | some dt =>
                simp only [hdate] at hok
                have hfc := (Except.ok.inj hok).symm
                subst hfc
                intro f hf
                rcases List.mem_append.mp hf with hnat | hint
                · obtain ⟨row, _, hcf⟩ := List.mem_filterMap.mp hnat
                  unfold createFeature at hcf
                  cases htemp : row.temp with
                  | none => rw [htemp] at hcf; cases hcf
                  | some v =>
                      rw [htemp] at hcf
                      have := Option.some.inj hcf
                      subst this
                      simp
                · have := (List.mem_filter.mp hint).2
                  simpa using this

/-- Witness for C10: the first feature of the collection produced from a
one-row input has a non-null temperature. -/
theorem C10_witness :
    (⟨0, 0, some 68, "2024-10-17T12:00:00Z", false⟩ : Feature).temperature ≠ none :=
  C10_no_null_temperature dGood
    ⟨"2024-10-17T12:00:00.000Z",
      [⟨0, 0, some 68, "2024-10-17T12:00:00Z", false⟩,
        ⟨0, 0, some 68, "2024-10-17T12:00:00.000Z", true⟩]⟩
    (by with_unfolding_all rfl)
    ⟨0, 0, some 68, "2024-10-17T12:00:00Z", false⟩ (List.mem_cons_self _ _)

/-! ## Bounds on the resampling coordinates -/

theorem tcoord_nonneg (n N k : ℕ) (hn : 1 ≤ n) (hk : k < N) :
    0 ≤ tcoord n N k := by
  unfold tcoord
  apply div_nonneg
  · apply mul_nonneg (Nat.cast_nonneg k)
    have h1 : (1 : ℚ) ≤ (n : ℚ) := by exact_mod_cast hn
    linarith
  · have hN : 1 ≤ N := by omega
    have h1 : (1 : ℚ) ≤ (N : ℚ) := by exact_mod_cast hN
    linarith

theorem tcoord_le (n N k : ℕ) (hn : 1 ≤ n) (hk : k < N) :
    tcoord n N k ≤ (n : ℚ) - 1 := by
  unfold tcoord
  have hn1 : (1 : ℚ) ≤ (n : ℚ) := by exact_mod_cast hn
  rcases Nat.lt_or_ge N 2 with hN | hN
  · have hk0 : k = 0 := by omega
    subst hk0
    simp
    linarith
  · have hN1 : (0 : ℚ) < (N : ℚ) - 1 := by
      have h2 : (2 : ℚ) ≤ (N : ℚ) := by exact_mod_cast hN
      linarith
    rw [div_le_iff₀ hN1]
    have hkN : (k : ℚ) ≤ (N : ℚ) - 1 := by
      have h2 : (k : ℚ) + 1 ≤ (N : ℚ) := by exact_mod_cast hk
      linarith
    nlinarith

theorem cellOf_fst_add_one_lt (n : ℕ) (t : ℚ) (hn : 2 ≤ n) :
    (cellOf n t).1 + 1 < n := by
  show min (Int.toNat ⌊t⌋) (n - 2) + 1 < n
  have hmin := Nat.min_le_right (Int.toNat ⌊t⌋) (n - 2)
  omega

theorem cellOf_frac_nonneg (n : ℕ) (t : ℚ) (h0 : 0 ≤ t) :
    0 ≤ (cellOf n t).2 := by
  show 0 ≤ t - ((min (Int.toNat ⌊t⌋) (n - 2) : ℕ) : ℚ)
  have hnn : (0 : ℤ) ≤ ⌊t⌋ := Int.floor_nonneg.mpr h0
  have h2 : ((Int.toNat ⌊t⌋ : ℕ) : ℚ) = ((⌊t⌋ : ℤ) : ℚ) := by
    exact_mod_cast Int.toNat_of_nonneg hnn
  have h3 : ((min (Int.toNat ⌊t⌋) (n - 2) : ℕ) : ℚ) ≤ ((Int.toNat ⌊t⌋ : ℕ) : ℚ) := by
    exact_mod_cast Nat.min_le_left _ _
  have h4 : ((⌊t⌋ : ℤ) : ℚ) ≤ t := Int.floor_le t
  linarith

theorem cellOf_frac_le_one (n : ℕ) (t : ℚ) (hn : 2 ≤ n) (h0 : 0 ≤ t)
    (h1 : t ≤ (n : ℚ) - 1) : (cellOf n t).2 ≤ 1 := by
  show t - ((min (Int.toNat ⌊t⌋) (n - 2) : ℕ) : ℚ) ≤ 1
  have hnn : (0 : ℤ) ≤ ⌊t⌋ := Int.floor_nonneg.mpr h0
  rcases le_or_lt (Int.toNat ⌊t⌋) (n - 2) with hle | hlt
  · rw [min_eq_left hle]
    have hfl : ((Int.toNat ⌊t⌋ : ℕ) : ℚ) = ((⌊t⌋ : ℤ) : ℚ) := by
      exact_mod_cast Int.toNat_of_nonneg hnn
    rw [hfl]
    have hlt1 := Int.lt_floor_add_one t
    push_cast at hlt1
    linarith
  · rw [min_eq_right (le_of_lt hlt)]
    have hcast : ((n - 2 : ℕ) : ℚ) = (n : ℚ) - 2 := by
      rw [Nat.cast_sub hn]
      norm_num
    rw [hcast]
    linarith

/-- C2.  Every value produced by the piecewise-linear Resampler lies
within the minimum and maximum of its immediate valid native neighbours:
whenever an output cell holds a finite value, the four corner cells of its
interpolation support are valid and bracket the value; no overshoot
beyond the neighbour extremes occurs anywhere in the tile. -/
theorem C2_no_overshoot (r c : ℕ) (m : ℚ) (g : Grid) (i j : ℕ) (v : ℚ)
    (hr : 2 ≤ r) (hc : 2 ≤ c) (hi : i < outLen r m) (hj : j < outLen c m)
    (hv : resampleCell r c (outLen r m) (outLen c m) g i j = some v) :
    ∃ a b d e,
      g (cellOf r (tcoord r (outLen r m) i)).1
          (cellOf c (tcoord c (outLen c m) j)).1 = some a ∧
      g (cellOf r (tcoord r (outLen r m) i)).1
          ((cellOf c (tcoord c (outLen c m) j)).1 + 1) = some b ∧
      g ((cellOf r (tcoord r (outLen r m) i)).1 + 1)
          (cellOf c (tcoord c (outLen c m) j)).1 = some d ∧
      g ((cellOf r (tcoord r (outLen r m) i)).1 + 1)
          ((cellOf c (tcoord c (outLen c m) j)).1 + 1) = some e ∧
      min (min a b) (min d e) ≤ v ∧ v ≤ max (max a b) (max d e) := by
  have hr1 : 1 ≤ r := by omega
  have hc1 : 1 ≤ c := by omega
  have h0y : 0 ≤ tcoord r (outLen r m) i := tcoord_nonneg r (outLen r m) i hr1 hi
  have h1y : tcoord r (outLen r m) i ≤ (r : ℚ) - 1 :=
    tcoord_le r (outLen r m) i hr1 hi
  have h0x : 0 ≤ tcoord c (outLen c m) j := tcoord_nonneg c (outLen c m) j hc1 hj
  have h1x : tcoord c (outLen c m) j ≤ (c : ℚ) - 1 :=
    tcoord_le c (outLen c m) j hc1 hj
  have hy0 : 0 ≤ (cellOf r (tcoord r (outLen r m) i)).2 :=
    cellOf_frac_nonneg r _ h0y
  have hy1 : (cellOf r (tcoord r (outLen r m) i)).2 ≤ 1 :=
    cellOf_frac_le_one r _ hr h0y h1y
  have hx0 : 0 ≤ (cellOf c (tcoord c (outLen c m) j)).2 :=
    cellOf_frac_nonneg c _ h0x
  have hx1 : (cellOf c (tcoord c (outLen c m) j)).2 ≤ 1 :=
    cellOf_frac_le_one c _ hc h0x h1x
  unfold resampleCell at hv
  simp only [bilinear] at hv
  cases ha : g (cellOf r (tcoord r (outLen r m) i)).1
      (cellOf c (tcoord c (outLen c m) j)).1 with
  | none => rw [ha] at hv; cases hv
  | some a =>
    cases hb : g (cellOf r (tcoord r (outLen r m) i)).1
        ((cellOf c (tcoord c (outLen c m) j)).1 + 1) with
    | none => rw [ha, hb] at hv; cases hv
    | some b =>
      cases hd : g ((cellOf r (tcoord r (outLen r m) i)).1 + 1)
          (cellOf c (tcoord c (outLen c m) j)).1 with
      | none => rw [ha, hb, hd] at hv; cases hv
      | some d =>
        cases he : g ((cellOf r (tcoord r (outLen r m) i)).1 + 1)
            ((cellOf c (tcoord c (outLen c m) j)).1 + 1) with
        | none => rw [ha, hb, hd, he] at hv; cases hv
        | some e =>
          simp only [ha, hb, hd, he] at hv
          have hveq := Option.some.inj hv
          refine ⟨a, b, d, e, rfl, rfl, rfl, rfl, ?_, ?_⟩
          · calc min (min a b) (min d e)
                ≤ min (lerp a b (cellOf c (tcoord c (outLen c m) j)).2)
                    (lerp d e (cellOf c (tcoord c (outLen c m) j)).2) :=
                  min_le_min (min_le_lerp hx0 hx1) (min_le_lerp hx0 hx1)
              _ ≤ v := by rw [← hveq]; exact min_le_lerp hy0 hy1
          · calc v
                ≤ max (lerp a b (cellOf c (tcoord c (outLen c m) j)).2)
                    (lerp d e (cellOf c (tcoord c (outLen c m) j)).2) := by
                  rw [← hveq]; exact lerp_le_max hy0 hy1
              _ ≤ max (max a b) (max d e) :=
                  max_le_max (lerp_le_max hx0 hx1) (lerp_le_max hx0 hx1)

/-- Witness for C2: on the fully valid 2-by-2 grid with values 1..4,
resampled with multiplier 2, the output cell (1, 1) holds the value 2,
bracketed by its four native corner values. -/
theorem C2_witness :
    ∃ a b d e,
      gW (cellOf 2 (tcoord 2 (outLen 2 2) 1)).1
          (cellOf 2 (tcoord 2 (outLen 2 2) 1)).1 = some a ∧
      gW (cellOf 2 (tcoord 2 (outLen 2 2) 1)).1
          ((cellOf 2 (tcoord 2 (outLen 2 2) 1)).1 + 1) = some b ∧
      gW ((cellOf 2 (tcoord 2 (outLen 2 2) 1)).1 + 1)
          (cellOf 2 (tcoord 2 (outLen 2 2) 1)).1 = some d ∧
      gW ((cellOf 2 (tcoord 2 (outLen 2 2) 1)).1 + 1)
          ((cellOf 2 (tcoord 2 (outLen 2 2) 1)).1 + 1) = some e ∧
      min (min a b) (min d e) ≤ 2 ∧ (2 : ℚ) ≤ max (max a b) (max d e) :=
  C2_no_overshoot 2 2 2 gW 1 1 2 (by norm_num) (by norm_num)
    (by with_unfolding_all decide) (by with_unfolding_all decide)
    (by with_unfolding_all rfl)

/-! ## Shape and bound lemmas for the Resampler -/

theorem axisPoint_zero (lo hi : ℚ) (n : ℕ) : axisPoint lo hi n 0 = lo := by
  unfold axisPoint
  simp

theorem axisPoint_last (lo hi : ℚ) (n : ℕ) (hn : 2 ≤ n) :
    axisPoint lo hi n (n - 1) = hi := by
  unfold axisPoint
  have h1 : 1 ≤ n := by omega
  have hcast : ((n - 1 : ℕ) : ℚ) = (n : ℚ) - 1 := by
    rw [Nat.cast_sub h1]
    norm_num
  have hne : (n : ℚ) - 1 ≠ 0 := by
    have h2 : (2 : ℚ) ≤ (n : ℚ) := by exact_mod_cast hn
    intro hz
    rw [sub_eq_zero] at hz
    rw [hz] at h2
    norm_num at h2
  rw [hcast]
  field_simp

theorem two_le_outLen (n : ℕ) (m : ℚ) (hn : 2 ≤ n) (hm : 1 ≤ m) :
    2 ≤ outLen n m := by
  unfold outLen
  have hn2 : (2 : ℚ) ≤ (n : ℚ) := by exact_mod_cast hn
  have h2 : (2 : ℚ) ≤ (n : ℚ) * m := by nlinarith
  have hz : (2 : ℤ) ≤ round ((n : ℚ) * m) := by
    rw [round_eq, Int.le_floor]
    push_cast
    linarith
  omega

/-- C3.  For every native extent and multiplier, the Resampler output has
exactly round(native_rows * m) rows, each of exactly
round(native_cols * m) cells, and the new coordinate axes span the same
physical bounds as the native axes: both start at the lower bound and end
at the upper bound. -/
theorem C3_resample_shape_and_bounds (r c : ℕ) (m : ℚ) (g : Grid)
    (lo hi : ℚ) (hr : 2 ≤ r) (_hc : 2 ≤ c) (hm : 1 ≤ m) :
    (increase_resolution r c m g).length = (round ((r : ℚ) * m)).toNat ∧
    (∀ row ∈ increase_resolution r c m g,
      row.length = (round ((c : ℚ) * m)).toNat) ∧
    axisPoint lo hi (outLen r m) 0 = axisPoint lo hi r 0 ∧
    axisPoint lo hi (outLen r m) (outLen r m - 1) = axisPoint lo hi r (r - 1) ∧
    axisPoint lo hi r 0 = lo ∧ axisPoint lo hi r (r - 1) = hi := by
  refine ⟨?_, ?_, ?_, ?_, axisPoint_zero lo hi r, axisPoint_last lo hi r hr⟩
  · unfold increase_resolution
    rw [List.length_map, List.length_range]
    rfl
  · intro row hrow
    unfold increase_resolution at hrow
    obtain ⟨i, _, hi⟩ := List.mem_map.mp hrow
    rw [← hi, List.length_map, List.length_range]
    rfl
  · rw [axisPoint_zero, axisPoint_zero]
  · rw [axisPoint_last lo hi (outLen r m) (two_le_outLen r m hr hm),
      axisPoint_last lo hi r hr]

/-- Witness for C3: a concrete 2-by-2 grid resampled at multiplier 2 has
the 4-by-4 shape round(2 * 2) by round(2 * 2) and its axes span the
native physical bounds 0..1. -/
theorem C3_witness :
    (increase_resolution 2 2 2 gW).length = (round ((2 : ℚ) * 2)).toNat ∧
    (∀ row ∈ increase_resolution 2 2 2 gW,
      row.length = (round ((2 : ℚ) * 2)).toNat) ∧
    axisPoint 0 1 (outLen 2 2) 0 = axisPoint 0 1 2 0 ∧
    axisPoint 0 1 (outLen 2 2) (outLen 2 2 - 1) = axisPoint 0 1 2 (2 - 1) ∧
    axisPoint 0 1 2 0 = 0 ∧ axisPoint 0 1 2 (2 - 1) = 1 :=
  C3_resample_shape_and_bounds 2 2 2 gW 0 1 (by norm_num) (by norm_num)
    (by norm_num)

/-! ## The Resampler at native density -/

theorem outLen_one (n : ℕ) : outLen n 1 = n := by
  unfold outLen
  rw [mul_one, round_natCast]
  exact Int.toNat_natCast n

theorem sub_one_ne_zero_of_two_le (n : ℕ) (hn : 2 ≤ n) : (n : ℚ) - 1 ≠ 0 := by
  have h2 : (2 : ℚ) ≤ (n : ℚ) := by exact_mod_cast hn
  intro hz
  rw [sub_eq_zero] at hz
  rw [hz] at h2
  norm_num at h2

theorem tcoord_self (n k : ℕ) (hn : 2 ≤ n) : tcoord n n k = (k : ℚ) := by
  unfold tcoord
  rw [mul_div_assoc, div_self (sub_one_ne_zero_of_two_le n hn), mul_one]

theorem cellOf_nat_fst (n k : ℕ) : (cellOf n (k : ℚ)).1 = min k (n - 2) := by
  show min (Int.toNat ⌊(k : ℚ)⌋) (n - 2) = min k (n - 2)
  rw [Int.floor_natCast, Int.toNat_natCast]

theorem cellOf_nat_snd (n k : ℕ) :
    (cellOf n (k : ℚ)).2 = (k : ℚ) - ((min k (n - 2) : ℕ) : ℚ) := by
  show (k : ℚ) - ((min (Int.toNat ⌊(k : ℚ)⌋) (n - 2) : ℕ) : ℚ) = _
  rw [Int.floor_natCast, Int.toNat_natCast]

theorem bilinear_nat (r c : ℕ) (g : Grid) (hr : 2 ≤ r) (hc : 2 ≤ c)
    (hvalid : ∀ i j, i < r → j < c → g i j ≠ none)
    (i j : ℕ) (hi : i < r) (hj : j < c) :
    bilinear r c g (i : ℚ) (j : ℚ) = g i j := by
  have hex : ∀ x y, x < r → y < c → ∃ a, g x y = some a := fun x y hx hy =>
    Option.ne_none_iff_exists'.mp (hvalid x y hx hy)
  rcases le_or_lt i (r - 2) with hiL | hiH
  · have hfi : (cellOf r (i : ℚ)).1 = i := by
      rw [cellOf_nat_fst]
      exact min_eq_left hiL
    have hsi : (cellOf r (i : ℚ)).2 = 0 := by
      rw [cellOf_nat_snd, min_eq_left hiL, sub_self]
    rcases le_or_lt j (c - 2) with hjL | hjH
    · have hfj : (cellOf c (j : ℚ)).1 = j := by
        rw [cellOf_nat_fst]
        exact min_eq_left hjL
      have hsj : (cellOf c (j : ℚ)).2 = 0 := by
        rw [cellOf_nat_snd, min_eq_left hjL, sub_self]
      obtain ⟨a, hA⟩ := hex i j hi hj
      obtain ⟨b, hB⟩ := hex i (j + 1) hi (by omega)
      obtain ⟨d, hD⟩ := hex (i + 1) j (by omega) hj
      obtain ⟨e, hE⟩ := hex (i + 1) (j + 1) (by omega) (by omega)
      simp only [bilinear, hfi, hsi, hfj, hsj, hA, hB, hD, hE]
      rw [lerp_zero, lerp_zero]
    · have hje : j = c - 1 := by omega
      have hfj : (cellOf c (j : ℚ)).1 = c - 2 := by
        rw [cellOf_nat_fst]
        exact min_eq_right (by omega)
      have hsj : (cellOf c (j : ℚ)).2 = 1 := by
        rw [cellOf_nat_snd, min_eq_right (by omega), hje,
          Nat.cast_sub (by omega : 1 ≤ c), Nat.cast_sub (by omega : 2 ≤ c)]
        push_cast
        ring
      have hj2 : c - 2 + 1 = j := by omega
      obtain ⟨a, hA⟩ := hex i (c - 2) hi (by omega)
      obtain ⟨b, hB⟩ := hex i (c - 2 + 1) hi (by omega)
      obtain ⟨d, hD⟩ := hex (i + 1) (c - 2) (by omega) (by omega)
      obtain ⟨e, hE⟩ := hex (i + 1) (c - 2 + 1) (by omega) (by omega)
      simp only [bilinear, hfi, hsi, hfj, hsj, hA, hB, hD, hE]
      rw [lerp_zero, lerp_one, ← hB, hj2]
  · have hie : i = r - 1 := by omega
    have hfi : (cellOf r (i : ℚ)).1 = r - 2 := by
      rw [cellOf_nat_fst]
      exact min_eq_right (by omega)
    have hsi : (cellOf r (i : ℚ)).2 = 1 := by
      rw [cellOf_nat_snd, min_eq_right (by omega), hie,
        Nat.cast_sub (by omega : 1 ≤ r), Nat.cast_sub (by omega : 2 ≤ r)]
      push_cast
      ring
    have hi2 : r - 2 + 1 = i := by omega
    rcases le_or_lt j (c - 2) with hjL | hjH
    · have hfj : (cellOf c (j : ℚ)).1 = j := by
        rw [cellOf_nat_fst]
        exact min_eq_left hjL
      have hsj : (cellOf c (j : ℚ)).2 = 0 := by
        rw [cellOf_nat_snd, min_eq_left hjL, sub_self]
      obtain ⟨a, hA⟩ := hex (r - 2) j (by omega) hj
      obtain ⟨b, hB⟩ := hex (r - 2) (j + 1) (by omega) (by omega)
      obtain ⟨d, hD⟩ := hex (r - 2 + 1) j (by omega) hj
      obtain ⟨e, hE⟩ := hex (r - 2 + 1) (j + 1) (by omega) (by omega)
      simp only [bilinear, hfi, hsi, hfj, hsj, hA, hB, hD, hE]
      rw [lerp_one, lerp_zero, ← hD, hi2]
    · have hje : j = c - 1 := by omega
      have hfj : (cellOf c (j : ℚ)).1 = c - 2 := by
        rw [cellOf_nat_fst]
        exact min_eq_right (by omega)
      have hsj : (cellOf c (j : ℚ)).2 = 1 := by
        rw [cellOf_nat_snd, min_eq_right (by omega), hje,
          Nat.cast_sub (by omega : 1 ≤ c), Nat.cast_sub (by omega : 2 ≤ c)]
        push_cast
        ring
      have hj2 : c - 2 + 1 = j := by omega
      obtain ⟨a, hA⟩ := hex (r - 2) (c - 2) (by omega) (by omega)
      obtain ⟨b, hB⟩ := hex (r - 2) (c - 2 + 1) (by omega) (by omega)
      obtain ⟨d, hD⟩ := hex (r - 2 + 1) (c - 2) (by omega) (by omega)
      obtain ⟨e, hE⟩ := hex (r - 2 + 1) (c - 2 + 1) (by omega) (by omega)
      simp only [bilinear, hfi, hsi, hfj, hsj, hA, hB, hD, hE]
      rw [lerp_one, lerp_one, ← hE, hi2, hj2]

/-- C8 counterexample.  On a 2-by-2 grid with one masked cell, resampling
at multiplier 1 is not the identity in any tolerance: the valid cell at
(0, 0) holds 50 in the input, yet the corresponding output cell is
not-a-number, because linear interpolation weights of zero still
propagate the NaN of the adjacent masked native cell. -/
theorem C8_counterexample :
    increase_resolution 2 2 1 gBad ≠ toLists 2 2 gBad ∧
    gBad 0 0 = some 50 ∧
    resampleCell 2 2 (outLen 2 1) (outLen 2 1) gBad 0 0 = none := by
  refine ⟨by with_unfolding_all decide, rfl, by with_unfolding_all rfl⟩

/-- C8 amended.  For every grid with no masked cell inside its extent,
the Resampler at multiplier 1 returns the input grid exactly (and so in
particular within any tolerance); in the exact rational embedding the
equality is literal. -/
theorem C8_multiplier_one_identity (r c : ℕ) (g : Grid) (hr : 2 ≤ r)
    (hc : 2 ≤ c) (hvalid : ∀ i j, i < r → j < c → g i j ≠ none) :
    increase_resolution r c 1 g = toLists r c g := by
  unfold increase_resolution toLists
  rw [outLen_one, outLen_one]
  apply List.map_congr_left
  intro i hi
  rw [List.mem_range] at hi
  apply List.map_congr_left
  intro j hj
  rw [List.mem_range] at hj
  show resampleCell r c r c g i j = g i j
  unfold resampleCell
  rw [tcoord_self r i hr, tcoord_self c j hc]
  exact bilinear_nat r c g hr hc hvalid i j hi hj

/-- Witness for C8 amended: on the fully valid 2-by-2 grid the
multiplier-1 resampling reproduces the input exactly. -/
theorem C8_witness : increase_resolution 2 2 1 gW = toLists 2 2 gW :=
  C8_multiplier_one_identity 2 2 gW (by norm_num) (by norm_num)
    (by
      intro i j hi hj
      interval_cases i <;> interval_cases j <;> simp [gW])

end SST
